import Mathlib

/-!
Verification development for the trading-ai-api repository (src/app.py).

The Python source is shallowly embedded: pandas `Series` of closes become
`List ℚ`, a NaN entry becomes `none : Option ℚ`, and the HTTP handler
`analyze` becomes a pure function parameterised by the outcomes of its two
external calls (market-data download, model completion) together with an
explicit trace of the calls and milestones it reaches.  Floats are modelled
by exact rationals; NaN never arises from the arithmetic itself in this
model, it arises only where pandas produces it structurally (insufficient
rolling history, `replace(0, nan)`, `diff` on the first row).
-/

set_option autoImplicit false

namespace TradingAI

/-! ### Timeframe Selector — `_pick_frame`, app.py lines 22-35

`datetime.fromisoformat(expire_iso)` and `datetime.now()` cannot be embedded;
the parse-and-subtract step is represented by its outcome `parsed : Option Int`
(`none` when `fromisoformat` raised, i.e. the `except` branch took `days = 10`).
The classification below `days` is translated line by line. -/

/-- The guard chain of `_pick_frame` on the computed day count. -/
def pickFrameFromDays (days : Int) : String × String :=
  if days ≤ 2 then ("5m", "5d")
  else if days ≤ 7 then ("15m", "7d")
  else if days ≤ 14 then ("1h", "1mo")
  else ("4h", "3mo")

/-- Handler `_pick_frame`: the `try` computes the day difference, the `except` defaults
to `days = 10`. -/
def pickFrame (parsed : Option Int) : String × String :=
  pickFrameFromDays (parsed.getD 10)

/-! ### Indicator Engine — `_ema`, `_rsi`, `_tech_snapshot`, app.py lines 37-66 -/

/-- Inner recurrence of `Series.ewm(span, adjust=False).mean()`:
each output is `alpha * x + (1 - alpha) * prev`.  With `adjust=False` pandas
applies exactly this recurrence, seeded by the first value; no NaN is produced
on NaN-free input. -/
def emaRec (alpha : ℚ) (prev : ℚ) : List ℚ → List ℚ
  | [] => []
  | x :: xs =>
    (alpha * x + (1 - alpha) * prev)
      :: emaRec alpha (alpha * x + (1 - alpha) * prev) xs

/-- Function `_ema(s, span)` = `s.ewm(span=span, adjust=False).mean()` with smoothing
factor `alpha = 2 / (span + 1)`. -/
def ema (span : ℕ) : List ℚ → List ℚ
  | [] => []
  | x :: xs => x :: emaRec (2 / ((span : ℚ) + 1)) x xs

/-- Reference definition written from the words of the spec, for comparison
with `ema`: smoothing factor `alpha = 2/(span+1)`, seeded by the first value,
recurrence `ema[i] = alpha * close[i] + (1 - alpha) * ema[i-1]`. -/
def emaSpecVal (alpha : ℚ) (s : List ℚ) : ℕ → ℚ
  | 0 => s.getD 0 0
  | i + 1 => alpha * s.getD (i + 1) 0 + (1 - alpha) * emaSpecVal alpha s i

/-- Series `close.diff()` without its leading NaN: `deltas s` lists
`s[i] - s[i-1]` for `i = 1 .. n-1` (length `n - 1`). -/
def deltas (s : List ℚ) : List ℚ :=
  List.zipWith (fun a b => a - b) s.tail s

/-- Array `np.where(delta > 0, delta, 0.0)` applied to `close.diff()`:
the leading NaN delta fails the `> 0` test, so position 0 holds `0.0`. -/
def gains (s : List ℚ) : List ℚ :=
  0 :: (deltas s).map (fun d => if 0 < d then d else 0)

/-- Array `np.where(delta < 0, -delta, 0.0)` applied to `close.diff()`:
the leading NaN delta fails the `< 0` test, so position 0 holds `0.0`. -/
def losses (s : List ℚ) : List ℚ :=
  0 :: (deltas s).map (fun d => if d < 0 then -d else 0)

/-- The last `k` elements of a list (`Series.tail(k)` / a rolling window
ending at the final row).  When the list is shorter than `k` it is returned
whole. -/
def lastK (k : ℕ) {α : Type} (xs : List α) : List α :=
  xs.drop (xs.length - k)

/-- Rolling mean `Series.rolling(p).mean()` evaluated at the final row: NaN (`none`)
unless at least `p` observations exist, else the mean of the last `p`. -/
def rollMeanLast (p : ℕ) (xs : List ℚ) : Option ℚ :=
  if p ≤ xs.length then some ((lastK p xs).sum / (p : ℚ)) else none

/-- Value `roll_up.iloc[-1]` for `_rsi` with `period = 14`. -/
def rollUpLast (close : List ℚ) : Option ℚ :=
  rollMeanLast 14 (gains close)

/-- Value `roll_down.iloc[-1]` for `_rsi` with `period = 14`. -/
def rollDownLast (close : List ℚ) : Option ℚ :=
  rollMeanLast 14 (losses close)

/-- Value `rs.iloc[-1]` where `rs = roll_up / roll_down.replace(0, np.nan)`:
a zero mean loss is replaced by NaN, and division by NaN (or of NaN) is NaN. -/
def rsLast (close : List ℚ) : Option ℚ :=
  match rollUpLast close, rollDownLast close with
  | some u, some d => if d = 0 then none else some (u / d)
  | _, _ => none

/-- Value `_rsi(close).iloc[-1]`: `rsi = 100.0 - (100.0 / (1.0 + rs))`,
NaN-propagating. -/
def rsiLast (close : List ℚ) : Option ℚ :=
  (rsLast close).map (fun r => 100 - 100 / (1 + r))

/-- The `rsi_zone` expression of `_tech_snapshot` (app.py line 64).  The raw
value `rsi14.iloc[-1]` may be NaN; an IEEE comparison against NaN is `False`,
so both threshold tests fail on `none` and the chain falls through to
`"neutral"`. -/
def rsiZone (r : Option ℚ) : String :=
  if (match r with | some v => decide (70 ≤ v) | none => false) then "overbought"
  else if (match r with | some v => decide (v ≤ 30) | none => false) then "oversold"
  else "neutral"

/-- The `info` dict built by `_tech_snapshot`. -/
structure Snapshot where
  last_close : ℚ
  ema20 : Option ℚ
  ema50 : Option ℚ
  rsi14 : Option ℚ
  above_ema20 : Option Bool
  above_ema50 : Option Bool
  rsi_zone : String
  deriving Repr, DecidableEq

/-- Function `_tech_snapshot(df)` on the close series.  `close.iloc[-1]` on an empty
series raises (`none` result = unhandled fault).  On NaN-free input the
`ewm` mean is NaN-free, so the `isna` guards on `ema20`/`ema50` can only fire
for an empty series; in this model `(ema n close).getLast?` is `none` exactly
in that case.  The `rsi14` guard fires whenever the rolling window lacks
history (`rsiLast = none`). -/
def techSnapshot (close : List ℚ) : Option Snapshot :=
  match close.getLast? with
  | none => none
  | some lastClose =>
    let e20 := (ema 20 close).getLast?
    let e50 := (ema 50 close).getLast?
    let r := rsiLast close
    some
      { last_close := lastClose
        ema20 := e20
        ema50 := e50
        rsi14 := r
        above_ema20 := e20.map (fun e => decide (e < lastClose))
        above_ema50 := e50.map (fun e => decide (e < lastClose))
        rsi_zone := rsiZone r }

/-! ### Commentary Formatter — `_fallback_comment`, app.py lines 157-182 -/

/-- Python `str.upper()` modelled over the character list (the symbols and
contract fields handled by the code are ASCII). -/
def pyUpper (s : String) : String :=
  String.mk (s.data.map Char.toUpper)

/-- Python `str.strip()`: drop whitespace from both ends. -/
def pyStrip (s : String) : String :=
  String.mk
    (((s.data.dropWhile Char.isWhitespace).reverse.dropWhile
      Char.isWhitespace).reverse)

/-- Python truthiness of the `above_ema20` / `above_ema50` snapshot fields,
which are `True`, `False` or `None`: `None` is falsy. -/
def pyTruthy : Option Bool → Bool
  | some b => b
  | none => false

/-- Python `x or d` for an optional string field: both a missing key and an
empty string are falsy and fall back to the default. -/
def pyOr (v : Option String) (d : String) : String :=
  match v with
  | some s => if s = "" then d else s
  | none => d

/-- Python `repr`-in-f-string of a bool: `"True"` / `"False"`. -/
def pyBoolStr (b : Bool) : String :=
  if b then "True" else "False"

/-- Python f-string rendering of a `bool | None` snapshot field. -/
def pyOptBoolStr : Option Bool → String
  | some b => pyBoolStr b
  | none => "None"

/-- Python `f"...:.2f"` on the model rationals: fixed two decimal digits,
rounding half away from zero.  (The binary-float representation details of
CPython formatting are abstracted; no claim inspects these digits.) -/
def formatFixed2 (q : ℚ) : String :=
  if q < 0 then "-" ++ formatFixed2Nat (⌊-q * 100 + 1 / 2⌋.toNat)
  else formatFixed2Nat (⌊q * 100 + 1 / 2⌋.toNat)
where
  /-- Render `n` hundredths as `int.frac` with two fractional digits. -/
  formatFixed2Nat (n : ℕ) : String :=
    toString (n / 100) ++ "." ++ (if n % 100 < 10 then "0" else "")
      ++ toString (n % 100)

/-- The `contract` dict of the request body.  The Python dict is untyped with
optional string-valued keys; only the keys the code reads are modelled.
`Type` is a Lean keyword, so that key is embedded as `Typ`. -/
structure Contract where
  Symbol : Option String := none
  Typ : Option String := none
  Strike : Option String := none
  Expire : Option String := none
  Volume : Option String := none
  Premium : Option String := none
  Delta : Option String := none
  Theta : Option String := none
  IV : Option String := none
  Side : Option String := none
  deriving Repr, DecidableEq

/-- The `bias` assignment chain of `_fallback_comment` (app.py lines 162-166):
`bias` starts at `"محايد"` (neutral), becomes `"صعودي"` (bullish) when both
above-EMA fields are truthy, `"هبوطي"` (bearish) when both are falsy.
`None` (unknown) is falsy, hence treated as not-above. -/
def biasOf (a20 a50 : Option Bool) : String :=
  if pyTruthy a20 && pyTruthy a50 then "صعودي"
  else if !pyTruthy a20 && !pyTruthy a50 then "هبوطي"
  else "محايد"

/-- The `rsi_note` dict lookup of `_fallback_comment` (lines 168-172).  The
key is always one of the three zone strings produced by `_tech_snapshot`, so
the dict lookup never raises; the third branch is the `"neutral"` entry. -/
def rsiNoteOf (zone : String) : String :=
  if zone = "overbought" then "RSI مرتفع (تشبّع شرائي) → احتمال تصحيح."
  else if zone = "oversold" then "RSI منخفض (تشبّع بيعي) → احتمال ارتداد."
  else "RSI حيادي."

/-- Function `_fallback_comment(symbol, interval, contract, tech)`: the deterministic
fallback commentary template. -/
def fallbackComment (symbol interval : String) (contract : Contract)
    (tech : Snapshot) : String :=
  let side := pyUpper (pyOr contract.Side "")
  let typ := pyUpper (pyOr contract.Typ "")
  let iv := pyOr contract.IV "-"
  let strike := pyOr contract.Strike "-"
  let bias := biasOf tech.above_ema20 tech.above_ema50
  let rsiNote := rsiNoteOf tech.rsi_zone
  "تحليل سريع (" ++ symbol ++ " | " ++ interval ++ ")\n"
    ++ "- انحياز فني: " ++ bias ++ ". آخر إغلاق "
    ++ formatFixed2 tech.last_close ++ ".\n"
    ++ "- EMA20/50: فوقهما؟ " ++ pyOptBoolStr tech.above_ema20 ++ "/"
    ++ pyOptBoolStr tech.above_ema50 ++ ".\n"
    ++ "- " ++ rsiNote ++ "\n"
    ++ "- العقد: " ++ typ ++ " " ++ side ++ ", سترايك " ++ strike
    ++ ", IV=" ++ iv ++ ".\n"
    ++ "- الملاحظة: لو " ++ pyBoolStr (typ == "CALL" && bias == "صعودي")
    ++ " فالتوافق إيجابي، ولعكسه الحذر.\n"
    ++ "هذا تلخيص آلي بديل عند غياب نموذج اللغة."

/-! ### Analysis Orchestrator — `analyze`, app.py lines 68-155

External effects are embedded as oracle outcomes plus an explicit trace:
`fetch` is the outcome `yf.download` would produce if called (an exception
message or a data frame), `modelCall` the outcome of the chat completion.
The trace records, in program order, the external calls made and the
computation milestones reached (lines 92, 100, 106, 136). -/

/-- One OHLCV row of the downloaded frame; a NaN cell is `none`
(the row index/timestamp is not consulted by the code and is omitted). -/
structure Candle where
  Open : Option ℚ := none
  High : Option ℚ := none
  Low : Option ℚ := none
  Close : Option ℚ := none
  Volume : Option ℚ := none
  deriving Repr, DecidableEq

/-- Frame `df.dropna()`: keep the rows with no NaN cell. -/
def dropna (df : List Candle) : List Candle :=
  df.filter (fun c =>
    c.Open.isSome && c.High.isSome && c.Low.isSome && c.Close.isSome
      && c.Volume.isSome)

/-- Column `df["Close"]` of a frame whose rows survived `dropna` (every kept row has
a present close). -/
def closesOf (df : List Candle) : List ℚ :=
  df.filterMap (fun c => c.Close)

/-- External calls and computation milestones of one `analyze` request. -/
inductive ExtEvent where
  /-- Event: `yf.download(...)` was invoked (line 92). -/
  | evFetch
  /-- Event: `_tech_snapshot(df)` was computed (line 100). -/
  | evSnapshot
  /-- Event: `_fallback_comment(...)` was computed (line 106). -/
  | evFallback
  /-- Event: `client.chat.completions.create(...)` was invoked (line 136). -/
  | evModel
  deriving Repr, DecidableEq

/-- A response body: either an error JSON with a single error message (the
`jsonify` call on lines 85 and 97) or the success payload of line 150. -/
inductive Body where
  | errBody (msg : String)
  | okBody (frame_used : String) (tech : Snapshot) (analysis : String)
      (candles_preview : List Candle)
  deriving Repr, DecidableEq

/-- An HTTP response: status code and body. -/
structure Response where
  status : ℕ
  body : Body
  deriving Repr, DecidableEq

/-- Truthiness of `os.getenv("OPENAI_API_KEY")`: unset (`None`) and the empty
string are both falsy. -/
def keyTruthy : Option String → Bool
  | some s => !(s == "")
  | none => false

/-- The `analyze` request handler.

Arguments standing for the ambient world: `expireDays` is the outcome of
`(datetime.fromisoformat(expire) - datetime.now()).days` (`none` when
parsing raised), `fetch` the outcome `yf.download` would yield, `openaiOk`
whether the OpenAI import succeeded, `apiKey` the `OPENAI_API_KEY` value,
`modelCall` the outcome the chat completion would yield.

The result is `none` when the handler would raise an unhandled exception
(only possible when `dropna` leaves an empty frame, so that
`close.iloc[-1]` faults outside the `try`); otherwise the response together
with the event trace. -/
def analyze (symbolField : Option String) (contract : Contract)
    (expireDays : Option Int) (fetch : Except String (List Candle))
    (openaiOk : Bool) (apiKey : Option String)
    (modelCall : Except String String) :
    Option (Response × List ExtEvent) :=
  let symbol := pyStrip (pyUpper (symbolField.getD ""))
  if symbol = "" then
    some (⟨400, Body.errBody "symbol is required"⟩, [])
  else
    let frame := pickFrame expireDays
    let interval := frame.1
    match fetch with
    | Except.error e =>
      some (⟨500, Body.errBody ("failed to fetch candles: " ++ e)⟩,
        [ExtEvent.evFetch])
    | Except.ok df0 =>
      if df0 = [] then
        some (⟨500, Body.errBody "failed to fetch candles: No data"⟩,
          [ExtEvent.evFetch])
      else
        let df := lastK 120 (dropna df0)
        match techSnapshot (closesOf df) with
        | none => none
        | some tech =>
          let fallbackText := fallbackComment symbol interval contract tech
          let preview := lastK 10 (lastK 50 df)
          let baseTrace := [ExtEvent.evFetch, ExtEvent.evSnapshot,
            ExtEvent.evFallback]
          if openaiOk && keyTruthy apiKey then
            match modelCall with
            | Except.ok t =>
              some (⟨200, Body.okBody interval tech (pyStrip t) preview⟩,
                baseTrace ++ [ExtEvent.evModel])
            | Except.error _ =>
              some (⟨200, Body.okBody interval tech fallbackText preview⟩,
                baseTrace ++ [ExtEvent.evModel])
          else
            some (⟨200, Body.okBody interval tech fallbackText preview⟩,
              baseTrace)

/-! ### Supporting lemmas -/

theorem length_emaRec (alpha prev : ℚ) (xs : List ℚ) :
    (emaRec alpha prev xs).length = xs.length := by
  induction xs generalizing prev with
  | nil => rfl
  | cons x xs ih => simp [emaRec, ih]

theorem length_ema (span : ℕ) (s : List ℚ) : (ema span s).length = s.length := by
  cases s with
  | nil => rfl
  | cons x xs => simp [ema, length_emaRec]

theorem ema_ne_nil (span : ℕ) {s : List ℚ} (h : s ≠ []) : ema span s ≠ [] := by
  cases s with
  | nil => exact absurd rfl h
  | cons x xs => simp [ema]

theorem length_deltas (s : List ℚ) : (deltas s).length = s.length - 1 := by
  cases s <;> simp [deltas]

theorem length_gains {s : List ℚ} (h : s ≠ []) :
    (gains s).length = s.length := by
  cases s with
  | nil => exact absurd rfl h
  | cons x xs => simp [gains, length_deltas]

theorem length_losses {s : List ℚ} (h : s ≠ []) :
    (losses s).length = s.length := by
  cases s with
  | nil => exact absurd rfl h
  | cons x xs => simp [losses, length_deltas]

theorem gains_nonneg {s : List ℚ} : ∀ x ∈ gains s, 0 ≤ x := by
  intro x hx
  rcases List.mem_cons.mp hx with rfl | hx'
  · exact le_refl 0
  · rcases List.mem_map.mp hx' with ⟨d, _, rfl⟩
    by_cases hd : 0 < d
    · simp [hd]; exact le_of_lt hd
    · simp [hd]

theorem losses_nonneg {s : List ℚ} : ∀ x ∈ losses s, 0 ≤ x := by
  intro x hx
  rcases List.mem_cons.mp hx with rfl | hx'
  · exact le_refl 0
  · rcases List.mem_map.mp hx' with ⟨d, _, rfl⟩
    by_cases hd : d < 0
    · simp [hd]; linarith
    · simp [hd]

theorem lastK_subset (k : ℕ) {α : Type} (xs : List α) : lastK k xs ⊆ xs :=
  List.drop_subset _ xs

theorem length_lastK (k : ℕ) {α : Type} (xs : List α) :
    (lastK k xs).length = min k xs.length := by
  simp [lastK]; omega

theorem lastK_cons_of_le {α : Type} (k : ℕ) (a : α) (xs : List α)
    (h : k ≤ xs.length) : lastK k (a :: xs) = lastK k xs := by
  have hk : (a :: xs).length - k = (xs.length - k) + 1 := by
    simp; omega
  simp only [lastK, hk, List.drop_succ_cons]

theorem lastK_of_le {α : Type} (k : ℕ) (xs : List α) (h : xs.length ≤ k) :
    lastK k xs = xs := by
  simp only [lastK, Nat.sub_eq_zero_of_le h, List.drop_zero]

theorem lastK_map (k : ℕ) (f : ℚ → ℚ) (xs : List ℚ) :
    lastK k (xs.map f) = (lastK k xs).map f := by
  simp only [lastK, List.length_map]
  exact (List.map_drop f xs (xs.length - k)).symm

theorem lastK_deltas_ne_nil {s : List ℚ} (h : 14 ≤ s.length) :
    lastK 14 (deltas s) ≠ [] := by
  have hl : (lastK 14 (deltas s)).length = min 14 (s.length - 1) := by
    rw [length_lastK, length_deltas]
  intro hnil
  rw [hnil] at hl
  simp at hl
  omega

theorem window_mem (f : ℚ → ℚ) (s : List ℚ) (h : 14 ≤ s.length) :
    ∀ x ∈ lastK 14 (0 :: (deltas s).map f),
      x = 0 ∨ ∃ d ∈ lastK 14 (deltas s), x = f d := by
  by_cases hc : 14 ≤ (deltas s).length
  · rw [lastK_cons_of_le 14 0 _ (by simpa using hc), lastK_map]
    intro x hx
    rcases List.mem_map.mp hx with ⟨d, hd, rfl⟩
    exact Or.inr ⟨d, hd, rfl⟩
  · push_neg at hc
    have h1 : (0 :: (deltas s).map f).length ≤ 14 := by
      simp; omega
    rw [lastK_of_le _ _ h1, lastK_of_le _ _ (le_of_lt hc)]
    intro x hx
    rcases List.mem_cons.mp hx with rfl | hx'
    · exact Or.inl rfl
    · rcases List.mem_map.mp hx' with ⟨d, hd, rfl⟩
      exact Or.inr ⟨d, hd, rfl⟩

theorem window_mem_rev (f : ℚ → ℚ) (s : List ℚ) (h : 14 ≤ s.length) :
    ∀ d ∈ lastK 14 (deltas s), f d ∈ lastK 14 (0 :: (deltas s).map f) := by
  intro d hd
  by_cases hc : 14 ≤ (deltas s).length
  · rw [lastK_cons_of_le 14 0 _ (by simpa using hc), lastK_map]
    exact List.mem_map.mpr ⟨d, hd, rfl⟩
  · push_neg at hc
    have h1 : (0 :: (deltas s).map f).length ≤ 14 := by
      simp; omega
    rw [lastK_of_le _ _ h1]
    rw [lastK_of_le _ _ (le_of_lt hc)] at hd
    exact List.mem_cons_of_mem 0 (List.mem_map.mpr ⟨d, hd, rfl⟩)

theorem gains_eq_cons_map (s : List ℚ) :
    gains s = 0 :: (deltas s).map (fun d => if 0 < d then d else 0) := rfl

theorem losses_eq_cons_map (s : List ℚ) :
    losses s = 0 :: (deltas s).map (fun d => if d < 0 then -d else 0) := rfl

theorem rollUpLast_eq {s : List ℚ} (h : 14 ≤ s.length) :
    rollUpLast s = some ((lastK 14 (gains s)).sum / 14) := by
  have hs : s ≠ [] := by
    intro hnil; rw [hnil] at h; simp at h
  have hlen : 14 ≤ (gains s).length := by rw [length_gains hs]; exact h
  simp only [rollUpLast, rollMeanLast, if_pos hlen, Nat.cast_ofNat]

theorem rollDownLast_eq {s : List ℚ} (h : 14 ≤ s.length) :
    rollDownLast s = some ((lastK 14 (losses s)).sum / 14) := by
  have hs : s ≠ [] := by
    intro hnil; rw [hnil] at h; simp at h
  have hlen : 14 ≤ (losses s).length := by rw [length_losses hs]; exact h
  simp only [rollDownLast, rollMeanLast, if_pos hlen, Nat.cast_ofNat]

theorem rollUpLast_nonneg {s : List ℚ} {u : ℚ} (h : rollUpLast s = some u) :
    0 ≤ u := by
  simp only [rollUpLast, rollMeanLast] at h
  split at h
  · have hsum : 0 ≤ (lastK 14 (gains s)).sum :=
      List.sum_nonneg (fun x hx => gains_nonneg x (lastK_subset 14 _ hx))
    have := Option.some.inj h
    subst this
    positivity
  · exact absurd h (by simp)

theorem rollDownLast_nonneg {s : List ℚ} {v : ℚ} (h : rollDownLast s = some v) :
    0 ≤ v := by
  simp only [rollDownLast, rollMeanLast] at h
  split at h
  · have hsum : 0 ≤ (lastK 14 (losses s)).sum :=
      List.sum_nonneg (fun x hx => losses_nonneg x (lastK_subset 14 _ hx))
    have := Option.some.inj h
    subst this
    positivity
  · exact absurd h (by simp)

theorem rsiLast_bounds {s : List ℚ} {r : ℚ} (h : rsiLast s = some r) :
    0 ≤ r ∧ r ≤ 100 := by
  rcases Option.map_eq_some'.mp h with ⟨rs, hrs, hfr⟩
  subst hfr
  cases hu : rollUpLast s with
  | none => simp [rsLast, hu] at hrs
  | some u =>
    cases hd : rollDownLast s with
    | none => simp [rsLast, hu, hd] at hrs
    | some v =>
      by_cases hv0 : v = 0
      · simp [rsLast, hu, hd, hv0] at hrs
      · simp only [rsLast, hu, hd, if_neg hv0, Option.some.injEq] at hrs
        subst hrs
        have hu0 := rollUpLast_nonneg hu
        have hvpos : 0 < v := lt_of_le_of_ne (rollDownLast_nonneg hd)
          (Ne.symm hv0)
        have hrs0 : 0 ≤ u / v := div_nonneg hu0 (le_of_lt hvpos)
        constructor
        · have hle : 100 / (1 + u / v) ≤ 100 :=
            div_le_self (by norm_num) (by linarith)
          linarith
        · have hpos : 0 < 100 / (1 + u / v) :=
            div_pos (by norm_num) (by linarith)
          linarith

theorem rsiLast_all_losses {s : List ℚ} (h14 : 14 ≤ s.length)
    (hall : ∀ d ∈ lastK 14 (deltas s), d < 0) : rsiLast s = some 0 := by
  have hup : rollUpLast s = some 0 := by
    rw [rollUpLast_eq h14]
    have hzero : ∀ x ∈ lastK 14 (gains s), x = 0 := by
      intro x hx
      rw [gains_eq_cons_map] at hx
      rcases window_mem _ s h14 x hx with rfl | ⟨d, hd, rfl⟩
      · rfl
      · simp [not_lt.mpr (le_of_lt (hall d hd))]
    rw [List.sum_eq_zero hzero]
    norm_num
  obtain ⟨d0, hd0⟩ := List.exists_mem_of_ne_nil _ (lastK_deltas_ne_nil h14)
  have hd0neg : d0 < 0 := hall d0 hd0
  have hmem : -d0 ∈ lastK 14 (losses s) := by
    rw [losses_eq_cons_map]
    have := window_mem_rev (fun d => if d < 0 then -d else 0) s h14 d0 hd0
    simpa [hd0neg] using this
  have hnn : ∀ x ∈ lastK 14 (losses s), 0 ≤ x :=
    fun x hx => losses_nonneg x (lastK_subset _ _ hx)
  have hle := List.single_le_sum hnn _ hmem
  have hsumpos : 0 < (lastK 14 (losses s)).sum := by linarith
  have hdown : rollDownLast s = some ((lastK 14 (losses s)).sum / 14) :=
    rollDownLast_eq h14
  have hvpos : 0 < (lastK 14 (losses s)).sum / 14 := by positivity
  have hrs : rsLast s = some 0 := by
    simp only [rsLast, hup, hdown, if_neg (ne_of_gt hvpos)]
    norm_num
  simp [rsiLast, hrs]

theorem rsiLast_all_gains {s : List ℚ} (h14 : 14 ≤ s.length)
    (hall : ∀ d ∈ lastK 14 (deltas s), 0 < d) : rsiLast s = none := by
  have hdown : rollDownLast s = some 0 := by
    rw [rollDownLast_eq h14]
    have hzero : ∀ x ∈ lastK 14 (losses s), x = 0 := by
      intro x hx
      rw [losses_eq_cons_map] at hx
      rcases window_mem _ s h14 x hx with rfl | ⟨d, hd, rfl⟩
      · rfl
      · simp [not_lt.mpr (le_of_lt (hall d hd))]
    rw [List.sum_eq_zero hzero]
    norm_num
  have hrs : rsLast s = none := by
    have hup := rollUpLast_eq h14
    simp [rsLast, hup, hdown]
  simp [rsiLast, hrs]

theorem emaRec_getD_succ (alpha : ℚ) :
    ∀ (xs : List ℚ) (p : ℚ) (i : ℕ), i + 1 < xs.length →
      (emaRec alpha p xs).getD (i + 1) 0
        = alpha * xs.getD (i + 1) 0
          + (1 - alpha) * (emaRec alpha p xs).getD i 0 := by
  intro xs
  induction xs with
  | nil => intro p i h; simp at h
  | cons y ys ih =>
    intro p i h
    cases i with
    | zero =>
      cases ys with
      | nil => simp at h
      | cons z zs => simp [emaRec]
    | succ j =>
      have h' : j + 1 < ys.length := by simpa using h
      simp only [emaRec, List.getD_cons_succ]
      exact ih _ j h'

theorem ema_getD_zero {s : List ℚ} (h : s ≠ []) (span : ℕ) :
    (ema span s).getD 0 0 = s.getD 0 0 := by
  cases s with
  | nil => exact absurd rfl h
  | cons x xs => simp [ema]

theorem ema_getD_succ (span : ℕ) {s : List ℚ} (i : ℕ) (h : i + 1 < s.length) :
    (ema span s).getD (i + 1) 0
      = 2 / ((span : ℚ) + 1) * s.getD (i + 1) 0
        + (1 - 2 / ((span : ℚ) + 1)) * (ema span s).getD i 0 := by
  cases s with
  | nil => simp at h
  | cons x xs =>
    cases i with
    | zero =>
      cases xs with
      | nil => simp at h
      | cons z zs => simp [ema, emaRec]
    | succ j =>
      have h' : j + 1 < xs.length := by simpa using h
      simp only [ema, List.getD_cons_succ]
      exact emaRec_getD_succ _ xs x j h'

theorem emaRec_one (p : ℚ) (xs : List ℚ) : emaRec 1 p xs = xs := by
  induction xs generalizing p with
  | nil => rfl
  | cons x xs ih => simp [emaRec, ih]

/-! ### Claim theorems -/

/-- C1: for every non-empty close series with fewer candles than the RSI
window (14), the Indicator Engine does not fault (`techSnapshot` returns a
snapshot), and the value with insufficient rolling history — RSI14 — is
reported as unknown (`none`), never as zero; EMA20, EMA50 and the two
above-EMA booleans are seeded from the first close, so each has sufficient
history from one candle on and is reported as a known value. -/
theorem snapshot_short_series_no_fault_unknown_rsi (close : List ℚ)
    (hne : close ≠ []) (hlen : close.length < 14) :
    ∃ s, techSnapshot close = some s ∧ s.rsi14 = none ∧
      (∃ e, s.ema20 = some e) ∧ (∃ e, s.ema50 = some e) ∧
      (∃ b, s.above_ema20 = some b) ∧ (∃ b, s.above_ema50 = some b) := by
  obtain ⟨lc, hlc⟩ := Option.isSome_iff_exists.mp
    (List.getLast?_isSome.mpr hne)
  obtain ⟨e20, he20⟩ := Option.isSome_iff_exists.mp
    (List.getLast?_isSome.mpr (ema_ne_nil 20 hne))
  obtain ⟨e50, he50⟩ := Option.isSome_iff_exists.mp
    (List.getLast?_isSome.mpr (ema_ne_nil 50 hne))
  have hrsi : rsiLast close = none := by
    have hshort : ¬ (14 ≤ (gains close).length) := by
      rw [length_gains hne]; omega
    simp [rsiLast, rsLast, rollUpLast, rollMeanLast, hshort]
  refine ⟨{ last_close := lc, ema20 := some e20, ema50 := some e50,
            rsi14 := none,
            above_ema20 := some (decide (e20 < lc)),
            above_ema50 := some (decide (e50 < lc)),
            rsi_zone := rsiZone none },
          ?_, rfl, ⟨e20, rfl⟩, ⟨e50, rfl⟩, ⟨_, rfl⟩, ⟨_, rfl⟩⟩
  simp [techSnapshot, hlc, he20, he50, hrsi]

/-- Witness for C1 at the three-candle series `[1, 2, 3]`. -/
theorem snapshot_short_series_no_fault_unknown_rsi_witness :
    ∃ s, techSnapshot [1, 2, 3] = some s ∧ s.rsi14 = none ∧
      (∃ e, s.ema20 = some e) ∧ (∃ e, s.ema50 = some e) ∧
      (∃ b, s.above_ema20 = some b) ∧ (∃ b, s.above_ema50 = some b) :=
  snapshot_short_series_no_fault_unknown_rsi [1, 2, 3] (by decide) (by decide)

/-- C10: whenever the snapshot's RSI14 is unknown (the pandas value is NaN),
both threshold comparisons on line 64 are false, so `rsi_zone` is
`"neutral"` — the handler neither faults nor picks another zone. -/
theorem rsi_zone_neutral_when_rsi_unknown (close : List ℚ) (s : Snapshot)
    (h : techSnapshot close = some s) (hr : s.rsi14 = none) :
    s.rsi_zone = "neutral" := by
  cases hlc : close.getLast? with
  | none => simp [techSnapshot, hlc] at h
  | some lc =>
    simp only [techSnapshot, hlc, Option.some.injEq] at h
    subst h
    simp only at hr
    simp [rsiZone, hr]

/-- Witness for C10 at the one-candle series `[1]`. -/
theorem rsi_zone_neutral_when_rsi_unknown_witness :
    Snapshot.rsi_zone
      { last_close := 1, ema20 := some 1, ema50 := some 1, rsi14 := none,
        above_ema20 := some false, above_ema50 := some false,
        rsi_zone := "neutral" } = "neutral" :=
  rsi_zone_neutral_when_rsi_unknown [1] _ rfl rfl

/-- C9: EMA with `span = 1` has smoothing factor `alpha = 1`, so it is the
identity on every close series. -/
theorem ema_span_one_is_identity (s : List ℚ) : ema 1 s = s := by
  cases s with
  | nil => rfl
  | cons x xs =>
    have halpha : 2 / (((1 : ℕ) : ℚ) + 1) = 1 := by norm_num
    simp only [ema, halpha, emaRec_one]

/-- C8: for a non-empty close series and `span ≥ 1`, the code's EMA agrees
with the reference definition written from the spec (`emaSpecVal`): same
length as the input, seeded by the first value, recurrence
`ema[i] = alpha * close[i] + (1 - alpha) * ema[i-1]` with
`alpha = 2/(span+1)`. -/
theorem ema_refines_spec_recurrence (span : ℕ) (hspan : 1 ≤ span)
    (s : List ℚ) (hs : s ≠ []) (i : ℕ) (hi : i < s.length) :
    (ema span s).length = s.length ∧
    (ema span s).getD i 0 = emaSpecVal (2 / ((span : ℚ) + 1)) s i := by
  refine ⟨length_ema span s, ?_⟩
  induction i with
  | zero => simpa [emaSpecVal] using ema_getD_zero hs span
  | succ j ihj =>
    have hj : j < s.length := by omega
    simp only [emaSpecVal]
    rw [← ihj hj]
    exact ema_getD_succ span j hi

/-- Witness for C8 at `span = 20`, series `[1, 2]`, index 1. -/
theorem ema_refines_spec_recurrence_witness :
    (ema 20 [1, 2]).length = ([1, 2] : List ℚ).length ∧
    (ema 20 [1, 2]).getD 1 0
      = emaSpecVal (2 / (((20 : ℕ) : ℚ) + 1)) [1, 2] 1 :=
  ema_refines_spec_recurrence 20 (by decide) [1, 2] (by decide) 1 (by decide)

/-- C4: the Timeframe Selector maps every parsed day count through the guard
chain `days ≤ 2 → ("5m","5d")`, `days ≤ 7 → ("15m","7d")`,
`days ≤ 14 → ("1h","1mo")`, otherwise `("4h","3mo")`, and an unparsable
expiration (days defaulted to 10) yields `("1h","1mo")`; the function is
total by construction over the parse outcome. -/
theorem pick_frame_classification :
    (∀ d : Int, d ≤ 2 → pickFrame (some d) = ("5m", "5d")) ∧
    (∀ d : Int, 2 < d → d ≤ 7 → pickFrame (some d) = ("15m", "7d")) ∧
    (∀ d : Int, 7 < d → d ≤ 14 → pickFrame (some d) = ("1h", "1mo")) ∧
    (∀ d : Int, 14 < d → pickFrame (some d) = ("4h", "3mo")) ∧
    pickFrame none = ("1h", "1mo") := by
  refine ⟨?_, ?_, ?_, ?_, by decide⟩
  · intro d h
    simp [pickFrame, pickFrameFromDays, h]
  · intro d h1 h2
    have n2 : ¬ d ≤ 2 := by omega
    simp [pickFrame, pickFrameFromDays, n2, h2]
  · intro d h1 h2
    have n2 : ¬ d ≤ 2 := by omega
    have n7 : ¬ d ≤ 7 := by omega
    simp [pickFrame, pickFrameFromDays, n2, n7, h2]
  · intro d h
    have n2 : ¬ d ≤ 2 := by omega
    have n7 : ¬ d ≤ 7 := by omega
    have n14 : ¬ d ≤ 14 := by omega
    simp [pickFrame, pickFrameFromDays, n2, n7, n14]

/-- Witness for C4 at days 0, 5, 10, 30 and at an unparsable expiration. -/
theorem pick_frame_classification_witness :
    pickFrame (some 0) = ("5m", "5d") ∧ pickFrame (some 5) = ("15m", "7d") ∧
    pickFrame (some 10) = ("1h", "1mo") ∧
    pickFrame (some 30) = ("4h", "3mo") ∧ pickFrame none = ("1h", "1mo") :=
  ⟨pick_frame_classification.1 0 (by decide),
   pick_frame_classification.2.1 5 (by decide) (by decide),
   pick_frame_classification.2.2.1 10 (by decide) (by decide),
   pick_frame_classification.2.2.2.1 30 (by decide),
   pick_frame_classification.2.2.2.2⟩

/-- C3: the fallback bias is bullish (`"صعودي"`) exactly when both above-EMA
fields are known-true, bearish (`"هبوطي"`) exactly when both are falsy
(false or unknown), neutral (`"محايد"`) otherwise; an unknown field behaves
exactly like a known "not above"; concretely, close 110 above EMA20 100 and
EMA50 105 is bullish, and close 90 below both is bearish. -/
theorem fallback_bias_classification :
    (∀ a20 a50 : Option Bool,
      (biasOf a20 a50 = "صعودي" ↔ a20 = some true ∧ a50 = some true) ∧
      (biasOf a20 a50 = "هبوطي"
        ↔ pyTruthy a20 = false ∧ pyTruthy a50 = false) ∧
      (biasOf a20 a50 = "محايد" ↔ pyTruthy a20 ≠ pyTruthy a50)) ∧
    (∀ x, biasOf none x = biasOf (some false) x
      ∧ biasOf x none = biasOf x (some false)) ∧
    biasOf (some (decide ((100 : ℚ) < 110))) (some (decide ((105 : ℚ) < 110)))
      = "صعودي" ∧
    biasOf (some (decide ((100 : ℚ) < 90))) (some (decide ((105 : ℚ) < 90)))
      = "هبوطي" :=
  ⟨by decide, by decide, rfl, rfl⟩

/-- Witness for C3: the bullish characterization applied at known-true
flags. -/
theorem fallback_bias_classification_witness :
    biasOf (some true) (some true) = "صعودي" :=
  (fallback_bias_classification.1 (some true) (some true)).1.mpr ⟨rfl, rfl⟩

/-- C2 counterexample: on the strictly increasing series `1..15` every delta
in the 14-wide rolling window is a gain, yet RSI14 is not 100 — the zero
mean loss is replaced by NaN, so RSI is undefined (`none`). -/
theorem rsi_all_gains_counterexample :
    (∀ d ∈ lastK 14
        (deltas [1, 2, 3, 4, 5, 6, 7, 8, 9, 10, 11, 12, 13, 14, 15]),
      (0 : ℚ) < d) ∧
    rsiLast [1, 2, 3, 4, 5, 6, 7, 8, 9, 10, 11, 12, 13, 14, 15] = none ∧
    rsiLast [1, 2, 3, 4, 5, 6, 7, 8, 9, 10, 11, 12, 13, 14, 15]
      ≠ some 100 := by
  refine ⟨?_, ?_, ?_⟩
  · intro d hd
    simp only [deltas, lastK] at hd
    norm_num [List.mem_cons] at hd
    subst hd
    norm_num
  · simp [rsiLast, rsLast, rollUpLast, rollDownLast, rollMeanLast, gains,
      losses, deltas, lastK]
    norm_num
  · simp [rsiLast, rsLast, rollUpLast, rollDownLast, rollMeanLast, gains,
      losses, deltas, lastK]
    norm_num

/-- C2 amended: RSI14 lies in `[0, 100]` whenever it is defined, and is
exactly 0 when every delta in the rolling window is a loss; when every delta
in the window is a gain, the mean loss is zero, so RS is undefined and RSI
is reported unknown (`none`) rather than 100. -/
theorem rsi_bounds_and_extremes :
    (∀ close : List ℚ, ∀ r : ℚ, rsiLast close = some r → 0 ≤ r ∧ r ≤ 100) ∧
    (∀ close : List ℚ, 14 ≤ close.length →
      (∀ d ∈ lastK 14 (deltas close), d < 0) → rsiLast close = some 0) ∧
    (∀ close : List ℚ, 14 ≤ close.length →
      (∀ d ∈ lastK 14 (deltas close), 0 < d) → rsiLast close = none) :=
  ⟨fun _ _ h => rsiLast_bounds h,
   fun _ h14 hall => rsiLast_all_losses h14 hall,
   fun _ h14 hall => rsiLast_all_gains h14 hall⟩

/-- Witness for C2 (amended): bounds at a mixed 15-candle series whose RSI
is 200/3, exact zero on the strictly decreasing series `15..1`, unknown on
the strictly increasing series `2..16`. -/
theorem rsi_bounds_and_extremes_witness :
    (0 ≤ (200 / 3 : ℚ) ∧ (200 / 3 : ℚ) ≤ 100) ∧
    rsiLast [15, 14, 13, 12, 11, 10, 9, 8, 7, 6, 5, 4, 3, 2, 1] = some 0 ∧
    rsiLast [2, 3, 4, 5, 6, 7, 8, 9, 10, 11, 12, 13, 14, 15, 16] = none :=
  ⟨rsi_bounds_and_extremes.1
      [10, 12, 11, 13, 12, 14, 13, 15, 14, 16, 15, 17, 16, 18, 17] (200 / 3)
      (by
        simp [rsiLast, rsLast, rollUpLast, rollDownLast, rollMeanLast, gains,
          losses, deltas, lastK]
        norm_num),
   rsi_bounds_and_extremes.2.1
      [15, 14, 13, 12, 11, 10, 9, 8, 7, 6, 5, 4, 3, 2, 1] (by decide)
      (by
        intro d hd
        simp only [deltas, lastK] at hd
        norm_num [List.mem_cons] at hd
        subst hd
        norm_num),
   rsi_bounds_and_extremes.2.2
      [2, 3, 4, 5, 6, 7, 8, 9, 10, 11, 12, 13, 14, 15, 16] (by decide)
      (by
        intro d hd
        simp only [deltas, lastK] at hd
        norm_num [List.mem_cons] at hd
        subst hd
        norm_num)⟩

/-- C5: whenever the symbol is empty after normalization (uppercase then
strip), `analyze` returns the 400 validation error and its trace is empty —
no candle fetch and no model call are made. -/
theorem analyze_empty_symbol_rejected (symbolField : Option String)
    (contract : Contract) (expireDays : Option Int)
    (fetch : Except String (List Candle)) (openaiOk : Bool)
    (apiKey : Option String) (modelCall : Except String String)
    (h : pyStrip (pyUpper (symbolField.getD "")) = "") :
    analyze symbolField contract expireDays fetch openaiOk apiKey modelCall
      = some (⟨400, Body.errBody "symbol is required"⟩, []) := by
  simp [analyze, h]

/-- Witness for C5 at a whitespace-only symbol and oracles that would fail
if consulted. -/
theorem analyze_empty_symbol_rejected_witness :
    analyze (some "   ") {} none (Except.error "boom") true (some "key")
        (Except.error "x")
      = some (⟨400, Body.errBody "symbol is required"⟩, []) :=
  analyze_empty_symbol_rejected (some "   ") {} none (Except.error "boom")
    true (some "key") (Except.error "x") (by decide)

/-- C6: when the market-data fetch raises or returns an empty frame,
`analyze` returns a 500 fetch error and stops: the trace contains only the
fetch call, so the indicator snapshot, the fallback commentary and the
model call are never reached. -/
theorem analyze_fetch_failure_is_500_and_stops (symbolField : Option String)
    (contract : Contract) (expireDays : Option Int)
    (fetch : Except String (List Candle)) (openaiOk : Bool)
    (apiKey : Option String) (modelCall : Except String String)
    (hsym : pyStrip (pyUpper (symbolField.getD "")) ≠ "")
    (hfetch : (∃ e, fetch = Except.error e) ∨ fetch = Except.ok []) :
    ∃ msg,
      analyze symbolField contract expireDays fetch openaiOk apiKey modelCall
        = some (⟨500, Body.errBody msg⟩, [ExtEvent.evFetch]) := by
  rcases hfetch with ⟨e, rfl⟩ | rfl
  · exact ⟨"failed to fetch candles: " ++ e, by simp [analyze, hsym]⟩
  · exact ⟨"failed to fetch candles: No data", by simp [analyze, hsym]⟩

/-- Witness for C6 at symbol AAPL and a fetch that raises. -/
theorem analyze_fetch_failure_is_500_and_stops_witness :
    ∃ msg,
      analyze (some "AAPL") {} none (Except.error "timeout") true (some "k")
          (Except.ok "text")
        = some (⟨500, Body.errBody msg⟩, [ExtEvent.evFetch]) :=
  analyze_fetch_failure_is_500_and_stops (some "AAPL") {} none
    (Except.error "timeout") true (some "k") (Except.ok "text") (by decide)
    (Or.inl ⟨"timeout", rfl⟩)

/-- C7: on a successful fetch, the fallback commentary is computed
unconditionally (its milestone is always in the trace), and whenever no
model credential is configured or the model call fails, the response is 200
with the analysis field equal to the deterministic fallback commentary —
the model failure never propagates. -/
theorem analyze_fallback_on_model_absent_or_failure
    (symbolField : Option String) (contract : Contract)
    (expireDays : Option Int) (df : List Candle) (tech : Snapshot)
    (openaiOk : Bool) (apiKey : Option String)
    (modelCall : Except String String)
    (hsym : pyStrip (pyUpper (symbolField.getD "")) ≠ "")
    (hdf : df ≠ [])
    (htech : techSnapshot (closesOf (lastK 120 (dropna df))) = some tech)
    (hmodel : (openaiOk && keyTruthy apiKey) = false
      ∨ ∃ e, modelCall = Except.error e) :
    ∃ tr,
      analyze symbolField contract expireDays (Except.ok df) openaiOk apiKey
          modelCall
        = some (⟨200, Body.okBody (pickFrame expireDays).1 tech
            (fallbackComment (pyStrip (pyUpper (symbolField.getD "")))
              (pickFrame expireDays).1 contract tech)
            (lastK 10 (lastK 50 (lastK 120 (dropna df))))⟩, tr)
      ∧ ExtEvent.evFallback ∈ tr := by
  rcases hmodel with hoff | ⟨e, rfl⟩
  · refine ⟨[ExtEvent.evFetch, ExtEvent.evSnapshot, ExtEvent.evFallback],
      ?_, by simp⟩
    simp [analyze, hsym, hdf, htech, hoff]
  · by_cases hon : (openaiOk && keyTruthy apiKey) = true
    · refine ⟨[ExtEvent.evFetch, ExtEvent.evSnapshot, ExtEvent.evFallback,
        ExtEvent.evModel], ?_, by simp⟩
      simp [analyze, hsym, hdf, htech, hon]
    · have hoff : (openaiOk && keyTruthy apiKey) = false := by
        simpa using hon
      refine ⟨[ExtEvent.evFetch, ExtEvent.evSnapshot, ExtEvent.evFallback],
        ?_, by simp⟩
      simp [analyze, hsym, hdf, htech, hoff]

/-- Witness for C7 at a one-candle frame with no model credential. -/
theorem analyze_fallback_on_model_absent_or_failure_witness :
    ∃ tr,
      analyze (some "aapl") {} none
          (Except.ok [⟨some 1, some 1, some 1, some 1, some 1⟩]) false none
          (Except.error "unreachable")
        = some (⟨200, Body.okBody (pickFrame none).1
            ⟨1, some 1, some 1, none, some false, some false, "neutral"⟩
            (fallbackComment (pyStrip (pyUpper ((some "aapl").getD "")))
              (pickFrame none).1 {}
              ⟨1, some 1, some 1, none, some false, some false, "neutral"⟩)
            (lastK 10 (lastK 50 (lastK 120 (dropna
              [⟨some 1, some 1, some 1, some 1, some 1⟩]))))⟩, tr)
      ∧ ExtEvent.evFallback ∈ tr :=
  analyze_fallback_on_model_absent_or_failure (some "aapl") {} none
    [⟨some 1, some 1, some 1, some 1, some 1⟩]
    ⟨1, some 1, some 1, none, some false, some false, "neutral"⟩
    false none (Except.error "unreachable") (by decide) (by decide) rfl
    (Or.inl rfl)

end TradingAI
